import Mathlib

/-!
Shallow embedding of the Balatrust core (balatrust_core) in Lean 4, together
with theorems checking the natural-language specification against it.

Modelling conventions:
* Rust `u8`/`u32`/`u64` values are embedded as `Nat`; the `% 2^w` reduction is
  made explicit exactly where wrap-around is reachable and relevant
  (the `u8` hand levels and the `u64` subtraction `level as u64 - 1`).
  Release-mode wrapping semantics are modelled; debug builds would panic at
  the same inputs.
* Rust `f64` scoring arithmetic is embedded as `Frac`, an exact unnormalized
  nonnegative fraction: every value the scoring pipeline produces (integer
  bases, integer flat bonuses, and x-mult factors drawn from 1, 3/2, 2, 3)
  is exactly representable in `f64` at the magnitudes reachable here, so
  `f64` arithmetic agrees with exact fraction arithmetic, and
  `(x - 1.0).abs() > f64::EPSILON` agrees with the value test `x ≠ 1`.
  (The one inexact `f64` constant, Steel Joker's 0.2, is embedded as 1/5;
  no claim depends on its value.)
* The `StdRng` random generator is abstracted as a stream of naturals
  (`List Nat`); a `gen::<f32>()` roll in `[0,1)` compared against the
  thresholds 0.70 / 0.85 is modelled as `v % 100 < 70` / `v % 100 < 85`, and
  `gen_range(0..n)` as `v % n`. No claim depends on the distribution.
* `HashMap<Rank, Vec<usize>>` iteration order is unspecified in Rust, but the
  groups list is immediately sorted by (size desc, rank desc), a total order
  on entries with distinct ranks, so the sorted list is iteration-order
  independent; the embedding builds it from the fixed rank enumeration.
-/

namespace Balatrust

/-! Card model: balatrust_core/src/card.rs -/

inductive Suit where
  | Spades
  | Hearts
  | Diamonds
  | Clubs
deriving DecidableEq

def Suit.ALL : List Suit := [Suit.Spades, Suit.Hearts, Suit.Diamonds, Suit.Clubs]

inductive Rank where
  | Two
  | Three
  | Four
  | Five
  | Six
  | Seven
  | Eight
  | Nine
  | Ten
  | Jack
  | Queen
  | King
  | Ace
deriving DecidableEq

/-- Discriminant values of the Rust `Rank` enum (`Two = 2` .. `Ace = 14`);
the derived `Ord` on the Rust enum compares these values. -/
def Rank.toNat : Rank → Nat
  | Rank.Two => 2
  | Rank.Three => 3
  | Rank.Four => 4
  | Rank.Five => 5
  | Rank.Six => 6
  | Rank.Seven => 7
  | Rank.Eight => 8
  | Rank.Nine => 9
  | Rank.Ten => 10
  | Rank.Jack => 11
  | Rank.Queen => 12
  | Rank.King => 13
  | Rank.Ace => 14

/-- Chip value of a rank when it scores (`Rank::chip_value`). -/
def Rank.chip_value (r : Rank) : Nat :=
  match r with
  | Rank.Two => 2
  | Rank.Three => 3
  | Rank.Four => 4
  | Rank.Five => 5
  | Rank.Six => 6
  | Rank.Seven => 7
  | Rank.Eight => 8
  | Rank.Nine => 9
  | Rank.Ten | Rank.Jack | Rank.Queen | Rank.King => 10
  | Rank.Ace => 11

inductive Enhancement where
  | Bonus
  | Mult
  | Wild
  | Glass
  | Steel
  | Stone
  | Gold
  | Lucky
deriving DecidableEq

inductive Edition where
  | Base
  | Foil
  | Holographic
  | Polychrome
deriving DecidableEq

inductive Seal where
  | Gold
  | Red
  | Blue
  | Purple
deriving DecidableEq

structure PlayingCard where
  rank : Rank
  suit : Suit
  enhancement : Option Enhancement
  edition : Edition
  -- `seal` is a Lean keyword, hence the underscore; the Rust field is `seal`
  seal_ : Option Seal
  debuffed : Bool
deriving DecidableEq

/-- Constructor `PlayingCard::new`. -/
def PlayingCard.new (rank : Rank) (suit : Suit) : PlayingCard :=
  { rank := rank, suit := suit, enhancement := none, edition := Edition.Base,
    seal_ := none, debuffed := false }

instance : Inhabited PlayingCard := ⟨PlayingCard.new Rank.Two Suit.Spades⟩

/-- Effective chip value considering enhancements (`PlayingCard::chip_value`). -/
def PlayingCard.chip_value (c : PlayingCard) : Nat :=
  if c.debuffed then 0
  else
    let base := match c.enhancement with
      | some Enhancement.Stone => 50
      | _ => c.rank.chip_value
    let bonus := match c.enhancement with
      | some Enhancement.Bonus => 30
      | _ => 0
    let edition_bonus := match c.edition with
      | Edition.Foil => 50
      | _ => 0
    base + bonus + edition_bonus

/-- Additional flat mult from the card's enhancement and edition
(`PlayingCard::mult_bonus`). -/
def PlayingCard.mult_bonus (c : PlayingCard) : Nat :=
  if c.debuffed then 0
  else
    let enh := match c.enhancement with
      | some Enhancement.Mult => 4
      | _ => 0
    let ed := match c.edition with
      | Edition.Holographic => 10
      | _ => 0
    enh + ed

/-- Exact embedding of the nonnegative `f64` values of the scoring pipeline
as an unnormalized fraction `num / den` of naturals (`den` is positive in
every fraction built here). -/
structure Frac where
  num : Nat
  den : Nat
deriving DecidableEq

/-- Embedding of `f64` addition. -/
def Frac.add (a b : Frac) : Frac := ⟨a.num * b.den + b.num * a.den, a.den * b.den⟩

/-- Embedding of `f64` multiplication. -/
def Frac.mul (a b : Frac) : Frac := ⟨a.num * b.num, a.den * b.den⟩

/-- Embedding of an integral `f64` value (`as f64` casts). -/
def Frac.ofNat (n : Nat) : Frac := ⟨n, 1⟩

/-- Value test against 1.0: for the exactly-represented values reached here,
`(x - 1.0).abs() > f64::EPSILON` holds iff the value differs from 1. -/
def Frac.isOne (a : Frac) : Bool := a.num = a.den

/-- Embedding of `f64::ceil` followed by the `as u64` cast, for the
nonnegative values reached here. -/
def Frac.ceilNat (a : Frac) : Nat := (a.num + a.den - 1) / a.den

/-- Multiplicative mult from the card (`PlayingCard::x_mult`); the `f64`
factors 2.0 and 1.5 are embedded exactly. -/
def PlayingCard.x_mult (c : PlayingCard) : Frac :=
  if c.debuffed then ⟨1, 1⟩
  else
    let enh : Frac := match c.enhancement with
      | some Enhancement.Glass => ⟨2, 1⟩
      | _ => ⟨1, 1⟩
    let ed : Frac := match c.edition with
      | Edition.Polychrome => ⟨3, 2⟩
      | _ => ⟨1, 1⟩
    enh.mul ed

/-- Whether the card acts as a wild card (`PlayingCard::is_wild`). -/
def PlayingCard.is_wild (c : PlayingCard) : Bool :=
  c.enhancement = some Enhancement.Wild

/-- Whether the card always scores regardless of hand
(`PlayingCard::always_scores`). -/
def PlayingCard.always_scores (c : PlayingCard) : Bool :=
  c.enhancement = some Enhancement.Stone

/-! Poker hands: balatrust_core/src/hand.rs -/

inductive PokerHand where
  | HighCard
  | Pair
  | TwoPair
  | ThreeOfAKind
  | Straight
  | Flush
  | FullHouse
  | FourOfAKind
  | StraightFlush
  | RoyalFlush
  | FiveOfAKind
  | FlushHouse
  | FlushFive
deriving DecidableEq

/-- Declaration index of the Rust `PokerHand` enum; the derived total order
on the Rust enum compares these indices. -/
def PokerHand.toIdx : PokerHand → Nat
  | PokerHand.HighCard => 0
  | PokerHand.Pair => 1
  | PokerHand.TwoPair => 2
  | PokerHand.ThreeOfAKind => 3
  | PokerHand.Straight => 4
  | PokerHand.Flush => 5
  | PokerHand.FullHouse => 6
  | PokerHand.FourOfAKind => 7
  | PokerHand.StraightFlush => 8
  | PokerHand.RoyalFlush => 9
  | PokerHand.FiveOfAKind => 10
  | PokerHand.FlushHouse => 11
  | PokerHand.FlushFive => 12

/-- Base chips for the hand at level 1 (`PokerHand::base_chips`). -/
def PokerHand.base_chips : PokerHand → Nat
  | PokerHand.HighCard => 5
  | PokerHand.Pair => 10
  | PokerHand.TwoPair => 20
  | PokerHand.ThreeOfAKind => 30
  | PokerHand.Straight => 30
  | PokerHand.Flush => 35
  | PokerHand.FullHouse => 40
  | PokerHand.FourOfAKind => 60
  | PokerHand.StraightFlush => 100
  | PokerHand.RoyalFlush => 100
  | PokerHand.FiveOfAKind => 120
  | PokerHand.FlushHouse => 140
  | PokerHand.FlushFive => 160

/-- Base mult for the hand at level 1 (`PokerHand::base_mult`). -/
def PokerHand.base_mult : PokerHand → Nat
  | PokerHand.HighCard => 1
  | PokerHand.Pair => 2
  | PokerHand.TwoPair => 2
  | PokerHand.ThreeOfAKind => 3
  | PokerHand.Straight => 4
  | PokerHand.Flush => 4
  | PokerHand.FullHouse => 4
  | PokerHand.FourOfAKind => 7
  | PokerHand.StraightFlush => 8
  | PokerHand.RoyalFlush => 8
  | PokerHand.FiveOfAKind => 12
  | PokerHand.FlushHouse => 14
  | PokerHand.FlushFive => 16

/-- Chips gained per level up (`PokerHand::level_up_chips`). -/
def PokerHand.level_up_chips : PokerHand → Nat
  | PokerHand.HighCard => 10
  | PokerHand.Pair => 15
  | PokerHand.TwoPair => 20
  | PokerHand.ThreeOfAKind => 20
  | PokerHand.Straight => 30
  | PokerHand.Flush => 15
  | PokerHand.FullHouse => 25
  | PokerHand.FourOfAKind => 30
  | PokerHand.StraightFlush => 40
  | PokerHand.RoyalFlush => 40
  | PokerHand.FiveOfAKind => 35
  | PokerHand.FlushHouse => 40
  | PokerHand.FlushFive => 50

/-- Mult gained per level up (`PokerHand::level_up_mult`). -/
def PokerHand.level_up_mult : PokerHand → Nat
  | PokerHand.HighCard => 1
  | PokerHand.Pair => 1
  | PokerHand.TwoPair => 1
  | PokerHand.ThreeOfAKind => 2
  | PokerHand.Straight => 3
  | PokerHand.Flush => 2
  | PokerHand.FullHouse => 2
  | PokerHand.FourOfAKind => 3
  | PokerHand.StraightFlush => 4
  | PokerHand.RoyalFlush => 4
  | PokerHand.FiveOfAKind => 3
  | PokerHand.FlushHouse => 4
  | PokerHand.FlushFive => 3

def PokerHand.ALL : List PokerHand :=
  [PokerHand.HighCard, PokerHand.Pair, PokerHand.TwoPair, PokerHand.ThreeOfAKind,
   PokerHand.Straight, PokerHand.Flush, PokerHand.FullHouse, PokerHand.FourOfAKind,
   PokerHand.StraightFlush, PokerHand.RoyalFlush, PokerHand.FiveOfAKind,
   PokerHand.FlushHouse, PokerHand.FlushFive]

structure HandResult where
  hand_type : PokerHand
  scoring_indices : List Nat
deriving DecidableEq


def Rank.ALL : List Rank :=
  [Rank.Two, Rank.Three, Rank.Four, Rank.Five, Rank.Six, Rank.Seven,
   Rank.Eight, Rank.Nine, Rank.Ten, Rank.Jack, Rank.Queen, Rank.King, Rank.Ace]

/-- Indices (in play order, hence ascending) of the cards with rank `r`;
this is the `Vec<usize>` stored under `r` in the `rank_freq` hash map. -/
def rankGroup (cards : List PlayingCard) (r : Rank) : List Nat :=
  (cards.enum.filter (fun p => p.2.rank = r)).map Prod.fst

/-- Comparator of the `groups.sort_by` call: size descending, then rank
descending. -/
def groupLe (a b : Rank × List Nat) : Bool :=
  decide (b.2.length < a.2.length ∨
    (b.2.length = a.2.length ∧ b.1.toNat ≤ a.1.toNat))

/-- Rank groups of the played cards sorted by (size desc, rank desc).
The Rust code collects them from a `HashMap` in unspecified order and then
sorts (`Vec::sort_by`, a stable sort, embedded as insertion sort, also
stable); the comparator is total on entries with distinct ranks, so the
result does not depend on the collection order. -/
def rankGroupsSorted (cards : List PlayingCard) : List (Rank × List Nat) :=
  List.insertionSort (fun a b => groupLe a b = true)
    ((Rank.ALL.map (fun r => (r, rankGroup cards r))).filter
      (fun p => ¬ p.2.isEmpty))

/-- Flush predicate of `detect_hand`: at least 5 cards, and some suit matched
by every card (wild cards match every suit). -/
def detectFlush (cards : List PlayingCard) : Bool :=
  decide (5 ≤ cards.length) &&
    Suit.ALL.any (fun target_suit =>
      cards.all (fun c => c.suit = target_suit || c.is_wild))

/-- Straight check (`check_straight`): exactly 5 cards whose sorted,
deduplicated rank values are 5 consecutive values or the Ace-low run. -/
def check_straight (cards : List PlayingCard) : Bool :=
  if cards.length ≠ 5 then false
  else
    let ranks := (List.insertionSort (fun a b : Nat => a ≤ b)
      (cards.map (fun c => c.rank.toNat))).dedup
    if ranks.length ≠ 5 then false
    else if ranks.getD 4 0 - ranks.getD 0 0 = 4 then true
    else if ranks = [2, 3, 4, 5, 14] then true
    else false

/-- Royal check (`is_royal`): the sorted ranks are 10, J, Q, K, A. -/
def is_royal (cards : List PlayingCard) : Bool :=
  List.insertionSort (fun a b : Nat => a ≤ b) (cards.map (fun c => c.rank.toNat)) =
    [10, 11, 12, 13, 14]

/-- Rust `Option<&usize>` comparison `group_sizes.first() >= Some(&k)`
(with `None < Some _`). -/
def headGe (l : List Nat) (k : Nat) : Bool :=
  match l.head? with
  | some v => k ≤ v
  | none => false

/-- Index of the highest-rank card (`max_by_key` keeps the last maximum). -/
def highCardIndex (cards : List PlayingCard) : Nat :=
  match cards.enum with
  | [] => 0
  | p :: rest =>
      (rest.foldl (fun best q => if best.2.rank.toNat ≤ q.2.rank.toNat then q else best) p).1

/-- Embedding of `detect_hand` (balatrust_core/src/hand.rs). -/
def detect_hand (cards : List PlayingCard) : HandResult :=
  if cards.isEmpty then { hand_type := PokerHand.HighCard, scoring_indices := [] }
  else
    let n := cards.length
    let is_flush := detectFlush cards
    let is_straight := check_straight cards
    let groups := rankGroupsSorted cards
    let group_sizes := groups.map (fun p => p.2.length)
    let all_indices := List.range n
    if n = 5 ∧ group_sizes.head? = some 5 ∧ is_flush then
      { hand_type := PokerHand.FlushFive, scoring_indices := all_indices }
    else if group_sizes.head? = some 5 then
      { hand_type := PokerHand.FiveOfAKind, scoring_indices := all_indices }
    else if n = 5 ∧ group_sizes.length = 2 ∧ group_sizes.getD 0 0 = 3 ∧
        group_sizes.getD 1 0 = 2 ∧ is_flush then
      { hand_type := PokerHand.FlushHouse, scoring_indices := all_indices }
    else if n = 5 ∧ is_straight ∧ is_flush ∧ is_royal cards then
      { hand_type := PokerHand.RoyalFlush, scoring_indices := all_indices }
    else if n = 5 ∧ is_straight ∧ is_flush then
      { hand_type := PokerHand.StraightFlush, scoring_indices := all_indices }
    else if headGe group_sizes 4 then
      { hand_type := PokerHand.FourOfAKind,
        scoring_indices := (groups.getD 0 (Rank.Two, [])).2 }
    else if 2 ≤ group_sizes.length ∧ group_sizes.getD 0 0 = 3 ∧
        2 ≤ group_sizes.getD 1 0 then
      { hand_type := PokerHand.FullHouse,
        scoring_indices := (groups.getD 0 (Rank.Two, [])).2 ++ (groups.getD 1 (Rank.Two, [])).2 }
    else if is_flush then
      { hand_type := PokerHand.Flush, scoring_indices := all_indices }
    else if is_straight then
      { hand_type := PokerHand.Straight, scoring_indices := all_indices }
    else if headGe group_sizes 3 then
      { hand_type := PokerHand.ThreeOfAKind,
        scoring_indices := (groups.getD 0 (Rank.Two, [])).2 }
    else if 2 ≤ group_sizes.length ∧ 2 ≤ group_sizes.getD 0 0 ∧
        2 ≤ group_sizes.getD 1 0 then
      { hand_type := PokerHand.TwoPair,
        scoring_indices := (groups.getD 0 (Rank.Two, [])).2 ++ (groups.getD 1 (Rank.Two, [])).2 }
    else if headGe group_sizes 2 then
      { hand_type := PokerHand.Pair,
        scoring_indices := (groups.getD 0 (Rank.Two, [])).2 }
    else
      { hand_type := PokerHand.HighCard, scoring_indices := [highCardIndex cards] }


/-! Scoring: balatrust_core/src/scoring.rs -/

/-- One step of the scoring process (`ScoreStep`). -/
inductive ScoreStep where
  | BaseHand (hand_type : PokerHand) (chips : Nat) (mult : Nat)
  | CardChips (card_index : Nat) (chips : Nat)
  | CardMult (card_index : Nat) (mult : Nat)
  | CardXMult (card_index : Nat) (x_mult : Frac)
  | JokerChips (joker_index : Nat) (chips : Nat)
  | JokerMult (joker_index : Nat) (mult : Nat)
  | JokerXMult (joker_index : Nat) (x_mult : Frac)
deriving DecidableEq

structure ScoreResult where
  hand_type : PokerHand
  scoring_indices : List Nat
  steps : List ScoreStep
  total_chips : Nat
  total_mult : Nat
  final_score : Nat
deriving DecidableEq

/-- Hand level state (`HandLevels`); the `HashMap<PokerHand, u8>` is embedded
as a total function since `new` populates every hand and `get_level`
defaults to 1. Levels are `u8`, so arithmetic is taken `% 2^8`. -/
structure HandLevels where
  levels : PokerHand → Nat

/-- The `u8` wrap-around value (release semantics of `*entry += 1`). -/
def u8Succ (n : Nat) : Nat := (n + 1) % 2 ^ 8

/-- `HandLevels::new`: every hand starts at level 1. -/
def HandLevels.new : HandLevels := { levels := fun _ => 1 }

/-- `HandLevels::get_level`. -/
def HandLevels.get_level (hl : HandLevels) (hand : PokerHand) : Nat :=
  hl.levels hand

/-- `HandLevels::level_up`: increments the `u8` level of one hand (wrapping
at 255 in release builds; debug builds would panic there). -/
def HandLevels.level_up (hl : HandLevels) (hand : PokerHand) : HandLevels :=
  { levels := fun h => if h = hand then u8Succ (hl.levels h) else hl.levels h }

/-- Wrapping `u64` subtraction of 1 (`level as u64 - 1` underflows for
level 0 in release builds). -/
def u64Pred (n : Nat) : Nat := (n + (2 ^ 64 - 1)) % 2 ^ 64

/-- `HandLevels::chips_for`: `base_chips + (level - 1) * level_up_chips`
in `u64` arithmetic. -/
def HandLevels.chips_for (hl : HandLevels) (hand : PokerHand) : Nat :=
  (hand.base_chips + u64Pred (hl.get_level hand) * hand.level_up_chips % 2 ^ 64) % 2 ^ 64

/-- `HandLevels::mult_for`: `base_mult + (level - 1) * level_up_mult`
in `u64` arithmetic. -/
def HandLevels.mult_for (hl : HandLevels) (hand : PokerHand) : Nat :=
  (hand.base_mult + u64Pred (hl.get_level hand) * hand.level_up_mult % 2 ^ 64) % 2 ^ 64

/-- Accumulator threaded through the scoring loops: the emitted steps and the
running chip / mult totals (the Rust `steps`, `total_chips`,
`total_mult_f` locals). -/
structure ScoreAcc where
  steps : List ScoreStep
  chips : Nat
  mult : Frac

/-- Body of the per-scoring-card loop of `calculate_score` (steps 2a-2c):
card chips, card flat mult, card x-mult. The Rust test
`(card_x_mult - 1.0).abs() > f64::EPSILON` is exact inequality with 1 for the
representable factors 1, 3/2, 2, 3. -/
def scoreCard (played : List PlayingCard) (acc : ScoreAcc) (idx : Nat) : ScoreAcc :=
  let card := played.getD idx default
  let card_chips := card.chip_value
  let acc :=
    if 0 < card_chips then
      { acc with steps := acc.steps ++ [ScoreStep.CardChips idx card_chips],
                 chips := acc.chips + card_chips }
    else acc
  let card_mult := card.mult_bonus
  let acc :=
    if 0 < card_mult then
      { acc with steps := acc.steps ++ [ScoreStep.CardMult idx card_mult],
                 mult := acc.mult.add (Frac.ofNat card_mult) }
    else acc
  let card_x_mult := card.x_mult
  if ¬ card_x_mult.isOne then
    { acc with steps := acc.steps ++ [ScoreStep.CardXMult idx card_x_mult],
               mult := acc.mult.mul card_x_mult }
  else acc

/-- Body of the Stone-card loop of `calculate_score`: cards that always score
but are not among the scoring indices contribute their chips. -/
def scoreStone (scoring_indices : List Nat) (acc : ScoreAcc) (p : Nat × PlayingCard) : ScoreAcc :=
  if p.2.always_scores && !(scoring_indices.contains p.1) then
    let card_chips := p.2.chip_value
    if 0 < card_chips then
      { acc with steps := acc.steps ++ [ScoreStep.CardChips p.1 card_chips],
                 chips := acc.chips + card_chips }
    else acc
  else acc

/-- Embedding of `calculate_score` (balatrust_core/src/scoring.rs). -/
def calculate_score (played_cards : List PlayingCard) (hand_levels : HandLevels) :
    ScoreResult :=
  let hand_result := detect_hand played_cards
  let hand_type := hand_result.hand_type
  let scoring_indices := hand_result.scoring_indices
  let base_chips := hand_levels.chips_for hand_type
  let base_mult := hand_levels.mult_for hand_type
  let acc0 : ScoreAcc :=
    { steps := [ScoreStep.BaseHand hand_type base_chips base_mult],
      chips := base_chips, mult := Frac.ofNat base_mult }
  let acc1 := scoring_indices.foldl (scoreCard played_cards) acc0
  let acc2 := played_cards.enum.foldl (scoreStone scoring_indices) acc1
  let total_mult := acc2.mult.ceilNat
  { hand_type := hand_type, scoring_indices := scoring_indices,
    steps := acc2.steps, total_chips := acc2.chips, total_mult := total_mult,
    final_score := acc2.chips * total_mult }

/-- Replay of a step list as described by the spec: fold chips additively,
flat mult additively, x-mult multiplicatively, starting from zero. -/
def replayStep : Nat × Frac → ScoreStep → Nat × Frac
  | (c, m), ScoreStep.BaseHand _ chips mult => (c + chips, m.add (Frac.ofNat mult))
  | (c, m), ScoreStep.CardChips _ chips => (c + chips, m)
  | (c, m), ScoreStep.CardMult _ mult => (c, m.add (Frac.ofNat mult))
  | (c, m), ScoreStep.CardXMult _ x => (c, m.mul x)
  | (c, m), ScoreStep.JokerChips _ chips => (c + chips, m)
  | (c, m), ScoreStep.JokerMult _ mult => (c, m.add (Frac.ofNat mult))
  | (c, m), ScoreStep.JokerXMult _ x => (c, m.mul x)

/-- Replaying a full step list from `(0, 0/1)`. -/
def replay (steps : List ScoreStep) : Nat × Frac :=
  steps.foldl replayStep (0, Frac.ofNat 0)


/-! Jokers: balatrust_core/src/joker.rs -/

inductive JokerRarity where
  | Common
  | Uncommon
  | Rare
  | Legendary
deriving DecidableEq

/-- Base price per rarity (`JokerRarity::base_price`). -/
def JokerRarity.base_price : JokerRarity → Nat
  | JokerRarity.Common => 4
  | JokerRarity.Uncommon => 6
  | JokerRarity.Rare => 8
  | JokerRarity.Legendary => 20

inductive JokerType where
  | Joker
  | GreedyJoker
  | LustyJoker
  | WrathfulJoker
  | GluttonousJoker
  | JollyJoker
  | ZanyJoker
  | CrazyJoker
  | HalfJoker
  | Banner
  | OddTodd
  | Scholar
  | SteelJoker
  | Blackboard
  | TheDuo
  | Egg
  | GoldenJoker
  | Hack
  | Blueprint
  | TheTrio
deriving DecidableEq

def JokerType.ALL : List JokerType :=
  [JokerType.Joker, JokerType.GreedyJoker, JokerType.LustyJoker,
   JokerType.WrathfulJoker, JokerType.GluttonousJoker, JokerType.JollyJoker,
   JokerType.ZanyJoker, JokerType.CrazyJoker, JokerType.HalfJoker,
   JokerType.Banner, JokerType.OddTodd, JokerType.Scholar,
   JokerType.SteelJoker, JokerType.Blackboard, JokerType.TheDuo,
   JokerType.Egg, JokerType.GoldenJoker, JokerType.Hack,
   JokerType.Blueprint, JokerType.TheTrio]

/-- Rarity of a joker type (`JokerType::rarity`). -/
def JokerType.rarity : JokerType → JokerRarity
  | JokerType.Joker | JokerType.GreedyJoker | JokerType.LustyJoker
  | JokerType.WrathfulJoker | JokerType.GluttonousJoker | JokerType.JollyJoker
  | JokerType.ZanyJoker | JokerType.CrazyJoker | JokerType.HalfJoker
  | JokerType.Banner | JokerType.OddTodd | JokerType.Egg
  | JokerType.GoldenJoker | JokerType.Hack => JokerRarity.Common
  | JokerType.Scholar | JokerType.SteelJoker | JokerType.TheDuo
  | JokerType.TheTrio => JokerRarity.Uncommon
  | JokerType.Blackboard | JokerType.Blueprint => JokerRarity.Rare

/-- Price of a joker type (`JokerType::price`). -/
def JokerType.price (t : JokerType) : Nat := t.rarity.base_price

/-- A joker instance owned by the player (`Joker`). -/
structure Joker where
  joker_type : JokerType
  sell_value : Nat
  bonus_sell : Nat
deriving DecidableEq

/-- Constructor `Joker::new`. -/
def Joker.new (joker_type : JokerType) : Joker :=
  { joker_type := joker_type, sell_value := joker_type.price / 2, bonus_sell := 0 }

/-- Total sell value (`Joker::total_sell_value`). -/
def Joker.total_sell_value (j : Joker) : Nat := j.sell_value + j.bonus_sell

/-- Context for joker evaluation (`JokerContext`). -/
structure JokerContext where
  played_cards : List PlayingCard
  scoring_indices : List Nat
  hand_type : PokerHand
  held_cards : List PlayingCard
  discards_remaining : Nat
  num_played : Nat

/-- The effect a joker applies to scoring (`JokerEffect`). -/
inductive JokerEffect where
  | AddChips (chips : Nat)
  | AddMult (mult : Nat)
  | XMult (factor : Frac)
  | AddChipsPerCard (card_indices : List Nat) (chips_each : Nat)
  | AddMultPerCard (card_indices : List Nat) (mult_each : Nat)
  | AddChipsAndMultPerCard (card_indices : List Nat) (chips_each : Nat) (mult_each : Nat)
  | Retrigger (card_indices : List Nat)
  | None
deriving DecidableEq

/-- Helper of the suit-conditional mult jokers (`suit_mult_joker`). -/
def suit_mult_joker (ctx : JokerContext) (suit : Suit) (mult_per : Nat) : JokerEffect :=
  let matching := ctx.scoring_indices.filter (fun i =>
    let card := ctx.played_cards.getD i default
    card.suit = suit || card.is_wild)
  if matching.isEmpty then JokerEffect.None
  else JokerEffect.AddMultPerCard matching mult_per

/-- Comparison on the derived total order of `PokerHand`
(`hand_contains_at_least`). -/
def hand_contains_at_least (ctx : JokerContext) (min_hand : PokerHand) : Bool :=
  min_hand.toIdx ≤ ctx.hand_type.toIdx

/-- Effect of a joker type in a context (`evaluate_type`). The Steel Joker
`f64` factor `1.0 + 0.2 * count` is embedded as the exact fraction
`(5 + count) / 5`. -/
def evaluate_type (jtype : JokerType) (ctx : JokerContext) : JokerEffect :=
  match jtype with
  | JokerType.Joker => JokerEffect.AddMult 4
  | JokerType.GreedyJoker => suit_mult_joker ctx Suit.Diamonds 3
  | JokerType.LustyJoker => suit_mult_joker ctx Suit.Hearts 3
  | JokerType.WrathfulJoker => suit_mult_joker ctx Suit.Spades 3
  | JokerType.GluttonousJoker => suit_mult_joker ctx Suit.Clubs 3
  | JokerType.JollyJoker =>
      if PokerHand.Pair.toIdx ≤ ctx.hand_type.toIdx then JokerEffect.AddMult 8
      else JokerEffect.None
  | JokerType.ZanyJoker =>
      if PokerHand.ThreeOfAKind.toIdx ≤ ctx.hand_type.toIdx then JokerEffect.AddMult 12
      else JokerEffect.None
  | JokerType.CrazyJoker =>
      if PokerHand.Straight.toIdx ≤ ctx.hand_type.toIdx ∨
          ctx.hand_type = PokerHand.StraightFlush ∨
          ctx.hand_type = PokerHand.RoyalFlush then
        JokerEffect.AddMult 12
      else JokerEffect.None
  | JokerType.HalfJoker =>
      if ctx.num_played ≤ 3 then JokerEffect.AddMult 20 else JokerEffect.None
  | JokerType.Banner => JokerEffect.AddChips (ctx.discards_remaining * 30)
  | JokerType.OddTodd =>
      let odd_indices := ctx.scoring_indices.filter (fun i =>
        (ctx.played_cards.getD i default).rank.toNat % 2 = 1)
      if odd_indices.isEmpty then JokerEffect.None
      else JokerEffect.AddChipsPerCard odd_indices 31
  | JokerType.Scholar =>
      let ace_indices := ctx.scoring_indices.filter (fun i =>
        (ctx.played_cards.getD i default).rank = Rank.Ace)
      if ace_indices.isEmpty then JokerEffect.None
      else JokerEffect.AddChipsAndMultPerCard ace_indices 20 4
  | JokerType.SteelJoker =>
      let steel_count := (ctx.held_cards.filter
        (fun c => c.enhancement = some Enhancement.Steel)).length
      if 0 < steel_count then JokerEffect.XMult ((Frac.ofNat 1).add ⟨steel_count, 5⟩)
      else JokerEffect.None
  | JokerType.Blackboard =>
      let all_dark := ctx.held_cards.all (fun c =>
        c.suit = Suit.Spades || c.suit = Suit.Clubs || c.is_wild)
      if all_dark ∧ ¬ ctx.held_cards.isEmpty then JokerEffect.XMult ⟨3, 1⟩
      else JokerEffect.None
  | JokerType.TheDuo =>
      if hand_contains_at_least ctx PokerHand.Pair then JokerEffect.XMult ⟨2, 1⟩
      else JokerEffect.None
  | JokerType.TheTrio =>
      if hand_contains_at_least ctx PokerHand.ThreeOfAKind then JokerEffect.XMult ⟨3, 1⟩
      else JokerEffect.None
  | JokerType.Egg | JokerType.GoldenJoker => JokerEffect.None
  | JokerType.Hack =>
      let retrigger_indices := ctx.scoring_indices.filter (fun i =>
        match (ctx.played_cards.getD i default).rank with
        | Rank.Two | Rank.Three | Rank.Four | Rank.Five => true
        | _ => false)
      if retrigger_indices.isEmpty then JokerEffect.None
      else JokerEffect.Retrigger retrigger_indices
  | JokerType.Blueprint => JokerEffect.None

/-- Evaluation of a joker instance (`evaluate_joker`): Blueprint evaluates
the next joker type in slot order instead, or has no effect in the last
slot. -/
def evaluate_joker (joker : Joker) (ctx : JokerContext)
    (next_joker_type : Option JokerType) : JokerEffect :=
  if joker.joker_type = JokerType.Blueprint then
    match next_joker_type with
    | some t => evaluate_type t ctx
    | none => JokerEffect.None
  else evaluate_type joker.joker_type ctx


/-! Blinds: balatrust_core/src/blind.rs -/

inductive BossBlind where
  | TheHook
  | TheWall
  | ThePsychic
  | TheNeedle
  | TheClub
  | TheGoad
  | TheWindow
  | TheHead
deriving DecidableEq

inductive BlindType where
  | Small
  | Big
  | Boss (boss : BossBlind)
deriving DecidableEq

/-- Money reward for beating a blind (`BlindType::reward`). -/
def BlindType.reward : BlindType → Nat
  | BlindType.Small => 3
  | BlindType.Big => 4
  | BlindType.Boss _ => 5

/-! Deck: balatrust_core/src/deck.rs -/

structure Deck where
  cards : List PlayingCard
  discard : List PlayingCard
deriving DecidableEq

/-- Append cards to the discard pile (`Deck::discard_cards`). -/
def Deck.discard_cards (d : Deck) (cs : List PlayingCard) : Deck :=
  { d with discard := d.discard ++ cs }

/-! Consumables: balatrust_core/src/consumable.rs -/

inductive PlanetCard where
  | Pluto
  | Mercury
  | Uranus
  | Venus
  | Saturn
  | Jupiter
  | Earth
  | Mars
  | Neptune
  | PlanetX
  | Ceres
  | Eris
deriving DecidableEq

/-- Common planet cards (`PlanetCard::COMMON`). -/
def PlanetCard.COMMON : List PlanetCard :=
  [PlanetCard.Pluto, PlanetCard.Mercury, PlanetCard.Uranus, PlanetCard.Venus,
   PlanetCard.Saturn, PlanetCard.Jupiter, PlanetCard.Earth, PlanetCard.Mars,
   PlanetCard.Neptune]

inductive TarotCard where
  | TheFool
  | TheMagician
  | TheHighPriestess
  | TheEmpress
  | TheEmperor
  | TheHierophant
  | TheLover
  | TheChariot
  | Strength
  | TheHermit
  | Death
  | Temperance
deriving DecidableEq

def TarotCard.ALL : List TarotCard :=
  [TarotCard.TheFool, TarotCard.TheMagician, TarotCard.TheHighPriestess,
   TarotCard.TheEmpress, TarotCard.TheEmperor, TarotCard.TheHierophant,
   TarotCard.TheLover, TarotCard.TheChariot, TarotCard.Strength,
   TarotCard.TheHermit, TarotCard.Death, TarotCard.Temperance]

inductive ConsumableType where
  | Planet (card : PlanetCard)
  | Tarot (card : TarotCard)
deriving DecidableEq

/-- Price of a consumable type (`ConsumableType::price`). -/
def ConsumableType.price : ConsumableType → Nat
  | ConsumableType.Planet _ => 3
  | ConsumableType.Tarot _ => 3

structure Consumable where
  consumable_type : ConsumableType
deriving DecidableEq

/-- Constructor `Consumable::planet`. -/
def Consumable.planet (card : PlanetCard) : Consumable :=
  { consumable_type := ConsumableType.Planet card }

/-- Constructor `Consumable::tarot`. -/
def Consumable.tarot (card : TarotCard) : Consumable :=
  { consumable_type := ConsumableType.Tarot card }

/-! Shop: balatrust_core/src/shop.rs -/

inductive ShopItem where
  | JokerItem (joker : Joker)
  | ConsumableItem (consumable : Consumable)
deriving DecidableEq

/-- Price of a shop item (`ShopItem::price`). -/
def ShopItem.price : ShopItem → Nat
  | ShopItem.JokerItem j => j.joker_type.price
  | ShopItem.ConsumableItem c => c.consumable_type.price

structure Shop where
  items : List ShopItem
  reroll_cost : Nat
deriving DecidableEq

/-- The abstract `StdRng` stream: each call consuming randomness pops one
natural (an exhausted stream yields 0, which no claim depends on). -/
def rngNext (rng : List Nat) : Nat × List Nat :=
  match rng with
  | [] => (0, [])
  | v :: rest => (v, rest)

/-- One weighted item roll of `Shop::generate`: the `gen::<f32>()` roll in
`[0,1)` compared against 0.70 / 0.85 is modelled as `v % 100 < 70` /
`v % 100 < 85`, and `gen_range(0..len)` as `v % len`. -/
def shopGenItem (rng : List Nat) : ShopItem × List Nat :=
  let (roll, rng) := rngNext rng
  if roll % 100 < 70 then
    let (i, rng) := rngNext rng
    (ShopItem.JokerItem (Joker.new (JokerType.ALL.getD (i % JokerType.ALL.length)
      JokerType.Joker)), rng)
  else if roll % 100 < 85 then
    let (i, rng) := rngNext rng
    (ShopItem.ConsumableItem (Consumable.planet
      (PlanetCard.COMMON.getD (i % PlanetCard.COMMON.length) PlanetCard.Pluto)), rng)
  else
    let (i, rng) := rngNext rng
    (ShopItem.ConsumableItem (Consumable.tarot
      (TarotCard.ALL.getD (i % TarotCard.ALL.length) TarotCard.TheFool)), rng)

/-- Embedding of `Shop::generate`: two weighted item rolls, reroll cost 5. -/
def Shop.generate (rng : List Nat) (_ante : Nat) : Shop × List Nat :=
  let r1 := shopGenItem rng
  let r2 := shopGenItem r1.2
  ({ items := [r1.1, r2.1], reroll_cost := 5 }, r2.2)

/-- Embedding of `Shop::reroll`: `*self = Self::generate(rng, ante)` replaces
the whole shop (including `reroll_cost`, reset to 5 by `generate`), then
`self.reroll_cost += 1`. The previous shop is not read at all. -/
def Shop.reroll (_self : Shop) (rng : List Nat) (ante : Nat) : Shop × List Nat :=
  let g := Shop.generate rng ante
  ({ g.1 with reroll_cost := g.1.reroll_cost + 1 }, g.2)

/-- Embedding of `Shop::buy`: remove and return the item at `index` if it is
in bounds. -/
def Shop.buy (sh : Shop) (index : Nat) : Option ShopItem × Shop :=
  if index < sh.items.length then
    (sh.items.get? index, { sh with items := sh.items.eraseIdx index })
  else (none, sh)


/-! Run state: balatrust_core/src/run.rs -/

inductive AntePhase where
  | BlindSelect
  | Playing
  | Shop
deriving DecidableEq

inductive BlindOutcome where
  | Upcoming
  | Active
  | Skipped
  | Beaten
deriving DecidableEq

/-- Itemized reward breakdown (`RewardBreakdown`). -/
structure RewardBreakdown where
  blind_reward : Nat
  hands_bonus : Nat
  hands_remaining : Nat
  interest : Nat
  money_held : Nat
  golden_joker_bonus : Nat
  total : Nat
deriving DecidableEq

/-- Complete run state (`RunState`). The `StdRng` field is the abstract
random stream; the `[BlindOutcome; 3]` array is a triple. -/
structure RunState where
  ante : Nat
  blind_type : BlindType
  ante_phase : AntePhase
  money : Nat
  hands_remaining : Nat
  discards_remaining : Nat
  hand_size : Nat
  max_jokers : Nat
  max_consumables : Nat
  deck : Deck
  hand : List PlayingCard
  selected_indices : List Nat
  jokers : List Joker
  consumables : List Consumable
  hand_levels : HandLevels
  round_score : Nat
  score_target : Nat
  boss_blind : BossBlind
  rng : List Nat
  blinds_beaten : Nat
  blind_outcomes : BlindOutcome × BlindOutcome × BlindOutcome
  shop : Option Shop

/-- Index of the current blind (`RunState::current_blind_index`). -/
def RunState.current_blind_index (s : RunState) : Nat :=
  match s.blind_type with
  | BlindType.Small => 0
  | BlindType.Big => 1
  | BlindType.Boss _ => 2

/-- Write to the `[BlindOutcome; 3]` array (indices used are always 0-2). -/
def setOutcome (o : BlindOutcome × BlindOutcome × BlindOutcome) (i : Nat)
    (v : BlindOutcome) : BlindOutcome × BlindOutcome × BlindOutcome :=
  match i with
  | 0 => (v, o.2.1, o.2.2)
  | 1 => (o.1, v, o.2.2)
  | _ => (o.1, o.2.1, v)

/-- Embedding of `RunState::calculate_reward_breakdown`. -/
def RunState.calculate_reward_breakdown (s : RunState) : RewardBreakdown :=
  let blind_reward := s.blind_type.reward
  let hands_bonus := s.hands_remaining
  let interest := min (s.money / 5) 5
  let golden_joker_bonus :=
    (s.jokers.filter (fun j => j.joker_type = JokerType.GoldenJoker)).length * 4
  { blind_reward := blind_reward, hands_bonus := hands_bonus,
    hands_remaining := s.hands_remaining, interest := interest,
    money_held := s.money, golden_joker_bonus := golden_joker_bonus,
    total := blind_reward + hands_bonus + interest + golden_joker_bonus }

/-- Embedding of `RunState::calculate_reward`. -/
def RunState.calculate_reward (s : RunState) : Nat :=
  s.calculate_reward_breakdown.total

/-- Embedding of `RunState::beat_blind`: credit the reward, mark the blind
beaten, grow Egg sell bonuses, move to the Shop phase, clear debuffs on the
hand and drain it into the discard pile, clear the selection, and generate
a fresh shop. -/
def RunState.beat_blind (s : RunState) : RunState :=
  let reward := s.calculate_reward
  let cleared_hand := s.hand.map (fun c => { c with debuffed := false })
  let g := Shop.generate s.rng s.ante
  { s with
    money := s.money + reward,
    blinds_beaten := (s.blinds_beaten + 1) % 2 ^ 8,
    blind_outcomes := setOutcome s.blind_outcomes s.current_blind_index BlindOutcome.Beaten,
    jokers := s.jokers.map (fun j =>
      if j.joker_type = JokerType.Egg then { j with bonus_sell := j.bonus_sell + 3 }
      else j),
    ante_phase := AntePhase.Shop,
    hand := [],
    deck := s.deck.discard_cards cleared_hand,
    selected_indices := [],
    shop := some g.1,
    rng := g.2 }

/-- The removal loop shared by `play_selected` (and `discard_selected`):
walk the index list, removing each in-bounds index from the hand and
collecting the removed cards in loop order. -/
def removeLoop : List Nat → List PlayingCard → List PlayingCard × List PlayingCard
  | [], hand => ([], hand)
  | idx :: rest, hand =>
      if idx < hand.length then
        let card := hand.getD idx default
        let r := removeLoop rest (hand.eraseIdx idx)
        (card :: r.1, r.2)
      else removeLoop rest hand

/-- Embedding of `RunState::play_selected`: sort the selected indices
descending (`sort_unstable_by(|a, b| b.cmp(a))`; on naturals the unstable
sort is extensionally unique, embedded as insertion sort), remove them from
the hand collecting the cards, reverse to recover original order, and clear
the selection. -/
def RunState.play_selected (s : RunState) : List PlayingCard × RunState :=
  let indices := List.insertionSort (fun a b : Nat => b ≤ a) s.selected_indices
  let r := removeLoop indices s.hand
  (r.1.reverse, { s with hand := r.2, selected_indices := [] })

/-- Embedding of `RunState::buy_shop_item`. -/
def RunState.buy_shop_item (s : RunState) (index : Nat) : Bool × RunState :=
  match s.shop with
  | none => (false, s)
  | some shop =>
    match shop.items.get? index with
    | none => (false, s)
    | some item0 =>
      let price := item0.price
      if s.money < price then (false, s)
      else
        let capacity_ok : Bool :=
          match shop.items.get? index with
          | some (ShopItem.JokerItem _) => decide (s.jokers.length < s.max_jokers)
          | some (ShopItem.ConsumableItem _) =>
              decide (s.consumables.length < s.max_consumables)
          | none => false
        if capacity_ok = false then (false, s)
        else
          match (Shop.buy shop index).1, (Shop.buy shop index).2 with
          | some item, shop1 =>
            let s1 := { s with shop := some shop1, money := s.money - price }
            match item with
            | ShopItem.JokerItem joker =>
                (true, { s1 with jokers := s1.jokers ++ [joker] })
            | ShopItem.ConsumableItem consumable =>
                (true, { s1 with consumables := s1.consumables ++ [consumable] })
          | none, _ => (false, s)

/-- Embedding of `RunState::reroll_shop`: charge the current reroll cost,
regenerate the shop, and set the new cost to the old cost plus one. -/
def RunState.reroll_shop (s : RunState) : Bool × RunState :=
  match s.shop with
  | none => (false, s)
  | some shop =>
    if s.money < shop.reroll_cost then (false, s)
    else
      let cost := shop.reroll_cost
      let old_cost := shop.reroll_cost
      let g := Shop.generate s.rng s.ante
      (true, { s with money := s.money - cost, rng := g.2,
                      shop := some { g.1 with reroll_cost := old_cost + 1 } })


/-! Derived definitions used by the verification below -/

/-- Sequencing of `level_up` calls. -/
def levelUpSeq (hl : HandLevels) (hs : List PokerHand) : HandLevels :=
  hs.foldl HandLevels.level_up hl

/-- The pair hand K spades, K hearts, 5 clubs of the spec's test table. -/
def pairCardsC4 : List PlayingCard :=
  [PlayingCard.new Rank.King Suit.Spades, PlayingCard.new Rank.King Suit.Hearts,
   PlayingCard.new Rank.Five Suit.Clubs]

/-- The two kings K spades, K hearts of the spec's test table. -/
def kingsC4 : List PlayingCard :=
  [PlayingCard.new Rank.King Suit.Spades, PlayingCard.new Rank.King Suit.Hearts]

/-- A small concrete joker context for witnesses. -/
def ctxC5 : JokerContext :=
  { played_cards := [PlayingCard.new Rank.Ace Suit.Spades],
    scoring_indices := [0], hand_type := PokerHand.HighCard,
    held_cards := [], discards_remaining := 3, num_played := 1 }

/-- The invariant of the scoring loops: replaying the emitted steps
reproduces the running totals. -/
def ReplayFaithful (acc : ScoreAcc) : Prop :=
  replay acc.steps = (acc.chips, acc.mult)


/-- Card index carried by a per-card step, if any. -/
def stepCardIndex : ScoreStep → Option Nat
  | ScoreStep.CardChips i _ => some i
  | ScoreStep.CardMult i _ => some i
  | ScoreStep.CardXMult i _ => some i
  | _ => none

/-- The per-card steps `calculate_score` emits while visiting one scoring
index: chips if positive, flat mult if positive, x-mult if different
from 1. -/
def cardStepList (played : List PlayingCard) (idx : Nat) : List ScoreStep :=
  (if 0 < (played.getD idx default).chip_value then
    [ScoreStep.CardChips idx (played.getD idx default).chip_value] else []) ++
  (if 0 < (played.getD idx default).mult_bonus then
    [ScoreStep.CardMult idx (played.getD idx default).mult_bonus] else []) ++
  (if ¬ (played.getD idx default).x_mult.isOne then
    [ScoreStep.CardXMult idx (played.getD idx default).x_mult] else [])

/-- The step list the Stone-card loop emits for one enumerated card. -/
def stoneStepOne (scoring : List Nat) (p : Nat × PlayingCard) : List ScoreStep :=
  if p.2.always_scores && !(scoring.contains p.1) then
    (if 0 < p.2.chip_value then [ScoreStep.CardChips p.1 p.2.chip_value] else [])
  else []

/-- All steps of the Stone-card loop. -/
def stoneStepList (played : List PlayingCard) (scoring : List Nat) : List ScoreStep :=
  played.enum.flatMap (stoneStepOne scoring)

/-- A full house played pair-before-triple: 5D 5S KS KH KC. -/
def fullHousePairFirst : List PlayingCard :=
  [PlayingCard.new Rank.Five Suit.Diamonds, PlayingCard.new Rank.Five Suit.Spades,
   PlayingCard.new Rank.King Suit.Spades, PlayingCard.new Rank.King Suit.Hearts,
   PlayingCard.new Rank.King Suit.Clubs]


/-- Six hearts of distinct ranks: a 6-card input on which the flush predicate
holds and a flush-based category is returned. -/
def sixHearts : List PlayingCard :=
  [PlayingCard.new Rank.Two Suit.Hearts, PlayingCard.new Rank.Three Suit.Hearts,
   PlayingCard.new Rank.Five Suit.Hearts, PlayingCard.new Rank.Eight Suit.Hearts,
   PlayingCard.new Rank.Jack Suit.Hearts, PlayingCard.new Rank.Ace Suit.Hearts]

/-- A plain five-card straight, 5S 6H 7C 8D 9S. -/
def straightCards : List PlayingCard :=
  [PlayingCard.new Rank.Five Suit.Spades, PlayingCard.new Rank.Six Suit.Hearts,
   PlayingCard.new Rank.Seven Suit.Clubs, PlayingCard.new Rank.Eight Suit.Diamonds,
   PlayingCard.new Rank.Nine Suit.Spades]


/-- A concrete run state with a debuffed card in hand and a Golden Joker,
used for witnesses. -/
def runC7 : RunState :=
  { ante := 1, blind_type := BlindType.Small, ante_phase := AntePhase.Playing,
    money := 12, hands_remaining := 2, discards_remaining := 3, hand_size := 8,
    max_jokers := 5, max_consumables := 2,
    deck := { cards := [], discard := [PlayingCard.new Rank.Two Suit.Clubs] },
    hand := [{ PlayingCard.new Rank.Ace Suit.Spades with debuffed := true }],
    selected_indices := [], jokers := [Joker.new JokerType.GoldenJoker],
    consumables := [], hand_levels := HandLevels.new, round_score := 300,
    score_target := 300, boss_blind := BossBlind.TheHook, rng := [],
    blinds_beaten := 0,
    blind_outcomes := (BlindOutcome.Active, BlindOutcome.Upcoming, BlindOutcome.Upcoming),
    shop := none }

/-- A concrete two-item shop used for witnesses. -/
def shopC9 : Shop :=
  { items := [ShopItem.JokerItem (Joker.new JokerType.Joker),
              ShopItem.ConsumableItem (Consumable.tarot TarotCard.TheHermit)],
    reroll_cost := 5 }

/-- A concrete run state in the shop phase used for witnesses. -/
def runC9 : RunState := { runC7 with ante_phase := AntePhase.Shop, shop := some shopC9 }

def runC9poor : RunState := { runC9 with money := 0 }

/-- The descending comparison used by `play_selected` is total. -/
instance : IsTotal Nat (fun a b => b ≤ a) := ⟨fun a b => le_total b a⟩

/-- The descending comparison used by `play_selected` is transitive. -/
instance : IsTrans Nat (fun a b => b ≤ a) := ⟨fun _ _ _ hab hbc => le_trans hbc hab⟩

/-- The cards of `hand` at the in-range positions listed in `sel`, in
ascending hand-index order. -/
def selectedInOrder (hand : List PlayingCard) (sel : List Nat) : List PlayingCard :=
  ((List.range hand.length).filter (fun i => decide (i ∈ sel))).map
    (fun i => hand.getD i default)

/-- The hand with the positions listed in `sel` removed. -/
def handWithout (hand : List PlayingCard) (sel : List Nat) : List PlayingCard :=
  ((List.range hand.length).filter (fun i => decide (i ∉ sel))).map
    (fun i => hand.getD i default)

/-- A concrete state for the C10 witness: four cards, positions 2 and 0
selected (in that order). -/
def runC10 : RunState :=
  { runC7 with
      hand := [PlayingCard.new Rank.Two Suit.Spades,
               PlayingCard.new Rank.Five Suit.Hearts,
               PlayingCard.new Rank.Nine Suit.Clubs,
               PlayingCard.new Rank.King Suit.Diamonds],
      selected_indices := [2, 0] }

/-!
## Theorems
-/


/-- C4: with all hand levels at 1, scoring K spades, K hearts, 5 clubs detects a
Pair with 2 scoring indices and gives 30 chips, mult 2, score 60; after one
level_up of Pair (level 2, base 25 chips / 3 mult), the two kings give
45 chips, mult 3, score 135. -/
theorem claim_C4_pair_scoring :
    (calculate_score pairCardsC4 HandLevels.new).hand_type = PokerHand.Pair ∧
    (calculate_score pairCardsC4 HandLevels.new).scoring_indices.length = 2 ∧
    (calculate_score pairCardsC4 HandLevels.new).total_chips = 30 ∧
    (calculate_score pairCardsC4 HandLevels.new).total_mult = 2 ∧
    (calculate_score pairCardsC4 HandLevels.new).final_score = 60 ∧
    (HandLevels.new.level_up PokerHand.Pair).get_level PokerHand.Pair = 2 ∧
    (HandLevels.new.level_up PokerHand.Pair).chips_for PokerHand.Pair = 25 ∧
    (HandLevels.new.level_up PokerHand.Pair).mult_for PokerHand.Pair = 3 ∧
    (calculate_score kingsC4 (HandLevels.new.level_up PokerHand.Pair)).total_chips = 45 ∧
    (calculate_score kingsC4 (HandLevels.new.level_up PokerHand.Pair)).total_mult = 3 ∧
    (calculate_score kingsC4 (HandLevels.new.level_up PokerHand.Pair)).final_score = 135 := by
  decide

/-- C5: a Blueprint joker evaluates to the effect the next joker type would
produce in the same context, and to no effect when there is no next joker. -/
theorem claim_C5_blueprint (joker : Joker) (ctx : JokerContext)
    (next : Option JokerType) (h : joker.joker_type = JokerType.Blueprint) :
    evaluate_joker joker ctx next =
      match next with
      | some t => evaluate_type t ctx
      | none => JokerEffect.None := by
  simp [evaluate_joker, h]

theorem claim_C5_blueprint_witness :
    evaluate_joker (Joker.new JokerType.Blueprint) ctxC5 (some JokerType.Joker) =
      evaluate_type JokerType.Joker ctxC5 ∧
    evaluate_joker (Joker.new JokerType.Blueprint) ctxC5 none = JokerEffect.None :=
  ⟨claim_C5_blueprint _ _ _ rfl, claim_C5_blueprint _ _ _ rfl⟩

/-- C7: beat_blind credits exactly blind reward + one per remaining hand +
interest capped at 5 + 4 per Golden Joker, enters the Shop phase with a
freshly generated shop, drains the hand into the discard pile, and clears
the debuffed flag on all of those cards. -/
theorem claim_C7_beat_blind (s : RunState) :
    (s.beat_blind).money = s.money + (s.blind_type.reward + s.hands_remaining +
        min (s.money / 5) 5 +
        (s.jokers.filter (fun j => j.joker_type = JokerType.GoldenJoker)).length * 4) ∧
    (s.beat_blind).ante_phase = AntePhase.Shop ∧
    (s.beat_blind).shop = some (Shop.generate s.rng s.ante).1 ∧
    (Shop.generate s.rng s.ante).1.reroll_cost = 5 ∧
    (s.beat_blind).hand = [] ∧
    (s.beat_blind).deck.cards = s.deck.cards ∧
    (s.beat_blind).deck.discard =
      s.deck.discard ++ s.hand.map (fun c => { c with debuffed := false }) ∧
    ∀ c ∈ s.hand.map (fun c => { c with debuffed := false }), c.debuffed = false := by
  refine ⟨rfl, rfl, rfl, rfl, rfl, rfl, rfl, ?_⟩
  intro c hc
  simp only [List.mem_map] at hc
  obtain ⟨a, _, rfl⟩ := hc
  rfl

/-- C8: `Shop::reroll` replaces the whole shop with a freshly generated one
(cost 5) before incrementing, so a fresh shop rerolled twice has reroll cost
6, not 5 + 2; the increase is not permanent across rerolls. -/
theorem claim_C8_reroll_cost_evaluation :
    ((Shop.generate [] 1).1).reroll_cost = 5 ∧
    (Shop.reroll (Shop.generate [] 1).1 [] 1).1.reroll_cost = 6 ∧
    (Shop.reroll (Shop.reroll (Shop.generate [] 1).1 [] 1).1 [] 1).1.reroll_cost = 6 ∧
    (5 + 2 : Nat) ≠ 6 := by
  decide

set_option maxRecDepth 4000 in
/-- C6 counterexample: the 255th level_up of Pair wraps the u8 level from 255
to 0, so get_level is not non-decreasing and the increment is bounded. -/
theorem claim_C6_counterexample :
    (levelUpSeq HandLevels.new (List.replicate 254 PokerHand.Pair)).get_level
        PokerHand.Pair = 255 ∧
    (levelUpSeq HandLevels.new (List.replicate 255 PokerHand.Pair)).get_level
        PokerHand.Pair = 0 ∧
    ¬ (255 : Nat) ≤ 0 := by
  decide

lemma pow_two_64_eq : (2 : Nat) ^ 64 = 18446744073709551616 := by norm_num

lemma pow_two_8_eq : (2 : Nat) ^ 8 = 256 := by norm_num

lemma get_level_level_up_self (hl : HandLevels) (h : PokerHand) :
    (hl.level_up h).get_level h = (hl.get_level h + 1) % 256 := by
  simp [HandLevels.level_up, HandLevels.get_level, u8Succ, pow_two_8_eq]

lemma get_level_level_up_other (hl : HandLevels) (h h2 : PokerHand) (hne : h2 ≠ h) :
    (hl.level_up h).get_level h2 = hl.get_level h2 := by
  simp [HandLevels.level_up, HandLevels.get_level, hne]

lemma get_level_levelUpSeq (hs : List PokerHand) (hl : HandLevels) (h : PokerHand)
    (hb : hl.get_level h + hs.count h ≤ 255) :
    (levelUpSeq hl hs).get_level h = hl.get_level h + hs.count h := by
  induction hs generalizing hl with
  | nil => simp [levelUpSeq]
  | cons h0 t ih =>
    have hstep : levelUpSeq hl (h0 :: t) = levelUpSeq (hl.level_up h0) t := rfl
    by_cases he : h = h0
    · subst he
      have hc : (h :: t).count h = t.count h + 1 := by simp [List.count_cons]
      have hb2 : hl.get_level h + (t.count h + 1) ≤ 255 := by rw [hc] at hb; exact hb
      have hup : (hl.level_up h).get_level h = hl.get_level h + 1 := by
        rw [get_level_level_up_self]
        omega
      rw [hstep, ih (hl.level_up h) (by rw [hup]; omega), hup, hc]
      omega
    · have hc : (h0 :: t).count h = t.count h := by
        simp [List.count_cons, he]
      have hb2 : hl.get_level h + t.count h ≤ 255 := by rw [hc] at hb; exact hb
      have hup := get_level_level_up_other hl h0 h he
      rw [hstep, ih (hl.level_up h0) (by rw [hup]; omega), hup, hc]

/-- C6 amended: levels start at 1; level_up adds exactly 1 while the level is
below 255 (the u8 wraps there) and leaves other hands unchanged; over any
sequence of at most 254 level_ups of a hand the level equals 1 plus the
count (hence is non-decreasing); chips_for and mult_for are base plus
(level - 1) times the level-up increment whenever 1 ≤ level ≤ 255. -/
theorem claim_C6_hand_levels_amended :
    (∀ h : PokerHand, HandLevels.new.get_level h = 1) ∧
    (∀ (hl : HandLevels) (h h2 : PokerHand), hl.get_level h < 255 →
      ((hl.level_up h).get_level h = hl.get_level h + 1 ∧
       (h2 ≠ h → (hl.level_up h).get_level h2 = hl.get_level h2))) ∧
    (∀ (hs : List PokerHand) (h : PokerHand), hs.count h ≤ 254 →
      (levelUpSeq HandLevels.new hs).get_level h = 1 + hs.count h) ∧
    (∀ (hl : HandLevels) (h : PokerHand), 1 ≤ hl.get_level h → hl.get_level h ≤ 255 →
      hl.chips_for h = h.base_chips + (hl.get_level h - 1) * h.level_up_chips ∧
      hl.mult_for h = h.base_mult + (hl.get_level h - 1) * h.level_up_mult) := by
  refine ⟨fun h => rfl, ?_, ?_, ?_⟩
  · intro hl h h2 hlt
    exact ⟨by rw [get_level_level_up_self]; omega,
           fun hne => get_level_level_up_other hl h h2 hne⟩
  · intro hs h hcount
    have h1 : HandLevels.new.get_level h = 1 := rfl
    rw [get_level_levelUpSeq hs HandLevels.new h (by rw [h1]; omega), h1]
  · intro hl h h1 h255
    have hpred : u64Pred (hl.get_level h) = hl.get_level h - 1 := by
      simp only [u64Pred, pow_two_64_eq]
      omega
    constructor
    · simp only [HandLevels.chips_for, hpred]
      have hinc : h.level_up_chips ≤ 50 := by cases h <;> decide
      have hsmall : (hl.get_level h - 1) * h.level_up_chips < 2 ^ 64 := by
        have := Nat.mul_le_mul (show hl.get_level h - 1 ≤ 254 by omega) hinc
        rw [pow_two_64_eq]
        omega
      rw [Nat.mod_eq_of_lt hsmall]
      have hbase : h.base_chips ≤ 160 := by cases h <;> decide
      have := Nat.mul_le_mul (show hl.get_level h - 1 ≤ 254 by omega) hinc
      rw [pow_two_64_eq] at hsmall ⊢
      omega
    · simp only [HandLevels.mult_for, hpred]
      have hinc : h.level_up_mult ≤ 4 := by cases h <;> decide
      have hsmall : (hl.get_level h - 1) * h.level_up_mult < 2 ^ 64 := by
        have := Nat.mul_le_mul (show hl.get_level h - 1 ≤ 254 by omega) hinc
        rw [pow_two_64_eq]
        omega
      rw [Nat.mod_eq_of_lt hsmall]
      have hbase : h.base_mult ≤ 16 := by cases h <;> decide
      have := Nat.mul_le_mul (show hl.get_level h - 1 ≤ 254 by omega) hinc
      rw [pow_two_64_eq] at hsmall ⊢
      omega

theorem claim_C6_hand_levels_amended_witness :
    HandLevels.new.get_level PokerHand.Pair = 1 ∧
    (HandLevels.new.level_up PokerHand.Pair).get_level PokerHand.Pair =
      HandLevels.new.get_level PokerHand.Pair + 1 ∧
    (levelUpSeq HandLevels.new [PokerHand.Pair, PokerHand.Flush, PokerHand.Pair]).get_level
        PokerHand.Pair =
      1 + [PokerHand.Pair, PokerHand.Flush, PokerHand.Pair].count PokerHand.Pair ∧
    (HandLevels.new.level_up PokerHand.Pair).chips_for PokerHand.Pair =
      PokerHand.Pair.base_chips +
        ((HandLevels.new.level_up PokerHand.Pair).get_level PokerHand.Pair - 1) *
          PokerHand.Pair.level_up_chips :=
  ⟨claim_C6_hand_levels_amended.1 PokerHand.Pair,
   (claim_C6_hand_levels_amended.2.1 HandLevels.new PokerHand.Pair PokerHand.Flush
      (by decide)).1,
   claim_C6_hand_levels_amended.2.2.1 _ PokerHand.Pair (by decide),
   (claim_C6_hand_levels_amended.2.2.2 (HandLevels.new.level_up PokerHand.Pair)
      PokerHand.Pair (by decide) (by decide)).1⟩


lemma replay_append (l l2 : List ScoreStep) :
    replay (l ++ l2) = l2.foldl replayStep (replay l) := by
  simp [replay, List.foldl_append]

lemma replayFaithful_scoreCard (played : List PlayingCard) (idx : Nat)
    {acc : ScoreAcc} (h : ReplayFaithful acc) :
    ReplayFaithful (scoreCard played acc idx) := by
  unfold ReplayFaithful at *
  unfold scoreCard
  dsimp only
  split <;> split <;> split <;>
    simp_all [replay_append, replayStep]

lemma replayFaithful_scoreStone (scoring : List Nat) (p : Nat × PlayingCard)
    {acc : ScoreAcc} (h : ReplayFaithful acc) :
    ReplayFaithful (scoreStone scoring acc p) := by
  unfold ReplayFaithful at *
  unfold scoreStone
  dsimp only
  split <;> [skip; exact h]
  split <;> [skip; exact h]
  simp_all [replay_append, replayStep]

lemma replayFaithful_foldl_cards (played : List PlayingCard) (l : List Nat)
    {acc : ScoreAcc} (h : ReplayFaithful acc) :
    ReplayFaithful (l.foldl (scoreCard played) acc) := by
  induction l generalizing acc with
  | nil => exact h
  | cons i t ih => exact ih (replayFaithful_scoreCard played i h)

lemma replayFaithful_foldl_stones (scoring : List Nat) (l : List (Nat × PlayingCard))
    {acc : ScoreAcc} (h : ReplayFaithful acc) :
    ReplayFaithful (l.foldl (scoreStone scoring) acc) := by
  induction l generalizing acc with
  | nil => exact h
  | cons p t ih => exact ih (replayFaithful_scoreStone scoring p h)

/-- C1: final_score is total_chips times total_mult, total_mult is the
ceiling of the folded mult, and replaying the steps reproduces total_chips
exactly and, after ceiling, total_mult exactly. -/
theorem claim_C1_score_replay (played_cards : List PlayingCard)
    (hand_levels : HandLevels) :
    (calculate_score played_cards hand_levels).final_score =
      (calculate_score played_cards hand_levels).total_chips *
        (calculate_score played_cards hand_levels).total_mult ∧
    (replay (calculate_score played_cards hand_levels).steps).1 =
      (calculate_score played_cards hand_levels).total_chips ∧
    ((replay (calculate_score played_cards hand_levels).steps).2).ceilNat =
      (calculate_score played_cards hand_levels).total_mult := by
  have h0 : ReplayFaithful
      { steps := [ScoreStep.BaseHand (detect_hand played_cards).hand_type
          (hand_levels.chips_for (detect_hand played_cards).hand_type)
          (hand_levels.mult_for (detect_hand played_cards).hand_type)],
        chips := hand_levels.chips_for (detect_hand played_cards).hand_type,
        mult := Frac.ofNat (hand_levels.mult_for (detect_hand played_cards).hand_type) } := by
    unfold ReplayFaithful
    simp [replay, replayStep, Frac.add, Frac.ofNat]
  have h2 := replayFaithful_foldl_stones (detect_hand played_cards).scoring_indices
    played_cards.enum
    (replayFaithful_foldl_cards played_cards (detect_hand played_cards).scoring_indices h0)
  exact ⟨rfl, congrArg Prod.fst h2, congrArg (fun q => Frac.ceilNat q.2) h2⟩

/-- C3 counterexample: for the full house played pair-before-triple the card
steps appear in scoring_indices order (triple group first), which is not
ascending played-card index order. -/
theorem claim_C3_counterexample :
    ((calculate_score fullHousePairFirst HandLevels.new).steps.filterMap
        stepCardIndex) = [2, 3, 4, 0, 1] ∧
    ¬ List.Sorted (fun a b : Nat => a ≤ b) [2, 3, 4, 0, 1] := by
  constructor
  · decide
  · decide

lemma steps_scoreCard (played : List PlayingCard) (idx : Nat) (acc : ScoreAcc) :
    (scoreCard played acc idx).steps = acc.steps ++ cardStepList played idx := by
  unfold scoreCard cardStepList
  dsimp only
  split <;> split <;> split <;> simp

lemma steps_scoreStone (scoring : List Nat) (p : Nat × PlayingCard) (acc : ScoreAcc) :
    (scoreStone scoring acc p).steps = acc.steps ++ stoneStepOne scoring p := by
  unfold scoreStone stoneStepOne
  dsimp only
  split <;> [skip; simp]
  split <;> simp

lemma steps_foldl_cards (played : List PlayingCard) (l : List Nat) (acc : ScoreAcc) :
    (l.foldl (scoreCard played) acc).steps =
      acc.steps ++ l.flatMap (cardStepList played) := by
  induction l generalizing acc with
  | nil => simp
  | cons i t ih =>
    simp only [List.foldl_cons, List.flatMap_cons, ih, steps_scoreCard,
      List.append_assoc]

lemma steps_foldl_stones (scoring : List Nat) (l : List (Nat × PlayingCard))
    (acc : ScoreAcc) :
    (l.foldl (scoreStone scoring) acc).steps =
      acc.steps ++ l.flatMap (stoneStepOne scoring) := by
  induction l generalizing acc with
  | nil => simp
  | cons p t ih =>
    simp only [List.foldl_cons, List.flatMap_cons, ih, steps_scoreStone,
      List.append_assoc]

/-- C3 amended: the steps are the base-hand step followed by the per-card
steps of each index of scoring_indices in the order they are stored in
scoring_indices (each group's indices ascending, but groups in group order,
not globally ascending), followed by the Stone-card steps. -/
theorem claim_C3_card_steps_order (played_cards : List PlayingCard)
    (hand_levels : HandLevels) :
    (calculate_score played_cards hand_levels).steps =
      ScoreStep.BaseHand (detect_hand played_cards).hand_type
          (hand_levels.chips_for (detect_hand played_cards).hand_type)
          (hand_levels.mult_for (detect_hand played_cards).hand_type) ::
        ((detect_hand played_cards).scoring_indices.flatMap (cardStepList played_cards) ++
          stoneStepList played_cards (detect_hand played_cards).scoring_indices) := by
  show (played_cards.enum.foldl (scoreStone (detect_hand played_cards).scoring_indices)
      ((detect_hand played_cards).scoring_indices.foldl (scoreCard played_cards)
        { steps := [ScoreStep.BaseHand (detect_hand played_cards).hand_type
            (hand_levels.chips_for (detect_hand played_cards).hand_type)
            (hand_levels.mult_for (detect_hand played_cards).hand_type)],
          chips := hand_levels.chips_for (detect_hand played_cards).hand_type,
          mult := Frac.ofNat (hand_levels.mult_for (detect_hand played_cards).hand_type) })).steps = _
  rw [steps_foldl_stones, steps_foldl_cards]
  simp [stoneStepList]

/-- C2 counterexample: six same-suit cards are a 6-card input for which
detect_hand returns the flush-based category Flush. -/
theorem claim_C2_counterexample :
    sixHearts.length = 6 ∧
    (detect_hand sixHearts).hand_type = PokerHand.Flush := by
  decide

lemma ite_hand_notin (c : Prop) [Decidable c] (x y : HandResult)
    (l : List PokerHand) (hx : x.hand_type ∉ l) (hy : y.hand_type ∉ l) :
    (ite c x y).hand_type ∉ l := by
  by_cases h : c
  · rw [if_pos h]; exact hx
  · rw [if_neg h]; exact hy

lemma check_straight_length (cards : List PlayingCard)
    (h : check_straight cards = true) : cards.length = 5 := by
  unfold check_straight at h
  split at h
  · exact absurd h (by simp)
  · omega

/-- C2 amended: the flush predicate holds iff at least 5 cards all match one
suit (wild counting as any); the straight predicate holds only for exactly 5
cards whose ranks are 5 distinct consecutive values (or the Ace-low run);
for more than 5 cards no straight-based category and none of the 5-card
flush categories is returned (plain Flush still can be, as the
counterexample shows). -/
theorem claim_C2_amended (cards : List PlayingCard) :
    (detectFlush cards = true ↔
      5 ≤ cards.length ∧ ∃ t, t ∈ Suit.ALL ∧ ∀ c ∈ cards, c.suit = t ∨ c.is_wild = true) ∧
    (check_straight cards = true →
      cards.length = 5 ∧ ∃ l, (cards.map (fun c => c.rank.toNat)).Perm l ∧
        ((∃ a, l = [a, a + 1, a + 2, a + 3, a + 4]) ∨ l = [2, 3, 4, 5, 14])) ∧
    (5 < cards.length →
      (detect_hand cards).hand_type ∉ [PokerHand.Straight, PokerHand.StraightFlush,
        PokerHand.RoyalFlush, PokerHand.FlushFive, PokerHand.FlushHouse]) := by
  refine ⟨?_, ?_, ?_⟩
  · unfold detectFlush
    simp [List.any_eq_true, List.all_eq_true]
  · intro h
    have hlen := check_straight_length cards h
    refine ⟨hlen, ?_⟩
    unfold check_straight at h
    rw [if_neg (by omega)] at h
    dsimp only at h
    obtain ⟨s, hs⟩ : ∃ s, List.insertionSort (fun a b : Nat => a ≤ b)
        (cards.map (fun c => c.rank.toNat)) = s := ⟨_, rfl⟩
    rw [hs] at h
    have hperm : s.Perm (cards.map (fun c => c.rank.toNat)) := by
      rw [← hs]; exact List.perm_insertionSort _ _
    have hslen : s.length = 5 := by
      rw [hperm.length_eq, List.length_map, hlen]
    have hsorted : List.Sorted (fun a b : Nat => a ≤ b) s := by
      rw [← hs]; exact List.sorted_insertionSort _ _
    by_cases hd : s.dedup.length ≠ 5
    · rw [if_pos hd] at h
      exact absurd h (by simp)
    · rw [if_neg hd] at h
      push_neg at hd
      have hddup : s.dedup = s :=
        (List.dedup_sublist s).eq_of_length (by omega)
      have hnodup : s.Nodup := by rw [← hddup]; exact List.nodup_dedup s
      have hlt : List.Sorted (fun a b : Nat => a < b) s := hsorted.lt_of_le hnodup
      rw [hddup] at h
      obtain ⟨a, b, c2, d2, e, rfl⟩ : ∃ a b c d e, s = [a, b, c, d, e] := by
        match s, hslen with
        | [a, b, c, d, e], _ => exact ⟨a, b, c, d, e, rfl⟩
      have hl1 := List.sorted_cons.mp hlt
      have hl2 := List.sorted_cons.mp hl1.2
      have hl3 := List.sorted_cons.mp hl2.2
      have hl4 := List.sorted_cons.mp hl3.2
      have hchain : a < b ∧ b < c2 ∧ c2 < d2 ∧ d2 < e :=
        ⟨hl1.1 b (by simp), hl2.1 c2 (by simp), hl3.1 d2 (by simp),
         hl4.1 e (by simp)⟩
      by_cases hspan : e - a = 4
      · refine ⟨[a, b, c2, d2, e], hperm.symm, Or.inl ⟨a, ?_⟩⟩
        obtain ⟨h1, h2, h3, h4⟩ := hchain
        have hb : b = a + 1 := by omega
        have hc : c2 = a + 2 := by omega
        have hd2 : d2 = a + 3 := by omega
        have he : e = a + 4 := by omega
        rw [hb, hc, hd2, he]
      · rw [if_neg (by simpa using hspan)] at h
        split at h
        · rename_i heq
          exact ⟨[a, b, c2, d2, e], hperm.symm, Or.inr (by simpa using heq)⟩
        · exact absurd h (by simp)
  · intro hgt
    have hne : cards.isEmpty = false := by
      cases cards with
      | nil => simp at hgt
      | cons a t => rfl
    unfold detect_hand
    rw [if_neg (show ¬ (cards.isEmpty = true) by simp [hne])]
    dsimp only
    rw [if_neg (show _ by intro hc; exact absurd hc.1 (by omega : cards.length ≠ 5))]
    apply ite_hand_notin
    · simp
    rw [if_neg (show _ by intro hc; exact absurd hc.1 (by omega : cards.length ≠ 5)),
        if_neg (show _ by intro hc; exact absurd hc.1 (by omega : cards.length ≠ 5)),
        if_neg (show _ by intro hc; exact absurd hc.1 (by omega : cards.length ≠ 5))]
    apply ite_hand_notin
    · simp
    apply ite_hand_notin
    · simp
    apply ite_hand_notin
    · simp
    rw [if_neg (show _ by
      intro hc
      exact absurd (check_straight_length cards hc) (by omega))]
    apply ite_hand_notin
    · simp
    apply ite_hand_notin
    · simp
    apply ite_hand_notin
    · simp
    simp

theorem claim_C2_amended_witness :
    detectFlush sixHearts = true ∧
    (detect_hand sixHearts).hand_type ∉ [PokerHand.Straight, PokerHand.StraightFlush,
      PokerHand.RoyalFlush, PokerHand.FlushFive, PokerHand.FlushHouse] ∧
    straightCards.length = 5 := by
  refine ⟨?_, ?_, ?_⟩
  · exact (claim_C2_amended sixHearts).1.mpr
      ⟨by decide, Suit.Hearts, by decide, by decide⟩
  · exact (claim_C2_amended sixHearts).2.2 (by decide)
  · exact ((claim_C2_amended straightCards).2.1 (by decide)).1

/-- C9: buy_shop_item is a no-op returning false when no shop is open, the
index is out of range, the price exceeds the money, or the target collection
is full; on success it removes the item, deducts the price, appends to the
matching collection and returns true. (The embedding is a total function, so
no input can panic.) -/
theorem claim_C9_buy_shop_item (s : RunState) (index : Nat) :
    (s.shop = none → s.buy_shop_item index = (false, s)) ∧
    (∀ sh, s.shop = some sh → sh.items.length ≤ index →
      s.buy_shop_item index = (false, s)) ∧
    (∀ sh item, s.shop = some sh → sh.items.get? index = some item →
      s.money < item.price → s.buy_shop_item index = (false, s)) ∧
    (∀ sh j, s.shop = some sh → sh.items.get? index = some (ShopItem.JokerItem j) →
      s.max_jokers ≤ s.jokers.length → s.buy_shop_item index = (false, s)) ∧
    (∀ sh c, s.shop = some sh →
      sh.items.get? index = some (ShopItem.ConsumableItem c) →
      s.max_consumables ≤ s.consumables.length →
      s.buy_shop_item index = (false, s)) ∧
    (∀ sh j, s.shop = some sh → sh.items.get? index = some (ShopItem.JokerItem j) →
      (ShopItem.JokerItem j).price ≤ s.money → s.jokers.length < s.max_jokers →
      s.buy_shop_item index = (true,
        { s with shop := some { sh with items := sh.items.eraseIdx index },
                 money := s.money - (ShopItem.JokerItem j).price,
                 jokers := s.jokers ++ [j] })) ∧
    (∀ sh c, s.shop = some sh →
      sh.items.get? index = some (ShopItem.ConsumableItem c) →
      (ShopItem.ConsumableItem c).price ≤ s.money →
      s.consumables.length < s.max_consumables →
      s.buy_shop_item index = (true,
        { s with shop := some { sh with items := sh.items.eraseIdx index },
                 money := s.money - (ShopItem.ConsumableItem c).price,
                 consumables := s.consumables ++ [c] })) := by
  refine ⟨?_, ?_, ?_, ?_, ?_, ?_, ?_⟩
  · intro hshop
    unfold RunState.buy_shop_item
    simp only [hshop]
  · intro sh hshop hlen
    unfold RunState.buy_shop_item
    simp only [hshop]
    have hget : sh.items.get? index = none := List.get?_eq_none.mpr hlen
    simp only [hget]
  · intro sh item hshop hget hmoney
    unfold RunState.buy_shop_item
    simp only [hshop, hget]
    rw [if_pos hmoney]
  · intro sh j hshop hget hcap
    unfold RunState.buy_shop_item
    simp only [hshop, hget]
    by_cases hm : s.money < (ShopItem.JokerItem j).price
    · rw [if_pos hm]
    · rw [if_neg hm]
      rw [if_pos (by simp [Nat.not_lt.mpr hcap])]
  · intro sh c hshop hget hcap
    unfold RunState.buy_shop_item
    simp only [hshop, hget]
    by_cases hm : s.money < (ShopItem.ConsumableItem c).price
    · rw [if_pos hm]
    · rw [if_neg hm]
      rw [if_pos (by simp [Nat.not_lt.mpr hcap])]
  · intro sh j hshop hget hmoney hcap
    unfold RunState.buy_shop_item
    simp only [hshop, hget]
    rw [if_neg (by omega)]
    rw [if_neg (by simp [hcap])]
    have hlt : index < sh.items.length := by
      by_contra hge
      rw [List.get?_eq_none.mpr (by omega)] at hget
      exact Option.noConfusion hget
    unfold Shop.buy
    rw [if_pos hlt]
    simp only [hget]
  · intro sh c hshop hget hmoney hcap
    unfold RunState.buy_shop_item
    simp only [hshop, hget]
    rw [if_neg (by omega)]
    rw [if_neg (by simp [hcap])]
    have hlt : index < sh.items.length := by
      by_contra hge
      rw [List.get?_eq_none.mpr (by omega)] at hget
      exact Option.noConfusion hget
    unfold Shop.buy
    rw [if_pos hlt]
    simp only [hget]

theorem claim_C7_beat_blind_witness :
    (runC7.beat_blind).money = runC7.money + (runC7.blind_type.reward +
        runC7.hands_remaining + min (runC7.money / 5) 5 +
        (runC7.jokers.filter
          (fun j => j.joker_type = JokerType.GoldenJoker)).length * 4) ∧
    ({ PlayingCard.new Rank.Ace Suit.Spades with debuffed := false } :
        PlayingCard).debuffed = false :=
  ⟨(claim_C7_beat_blind runC7).1,
   (claim_C7_beat_blind runC7).2.2.2.2.2.2.2 _ (by decide)⟩

theorem claim_C9_buy_shop_item_witness :
    runC9poor.buy_shop_item 0 = (false, runC9poor) ∧
    runC9.buy_shop_item 5 = (false, runC9) ∧
    ({ runC9 with shop := none } : RunState).buy_shop_item 0 =
      (false, { runC9 with shop := none }) ∧
    runC9.buy_shop_item 0 = (true,
      { runC9 with
          shop := some { shopC9 with items := shopC9.items.eraseIdx 0 },
          money := runC9.money -
            (ShopItem.JokerItem (Joker.new JokerType.Joker)).price,
          jokers := runC9.jokers ++ [Joker.new JokerType.Joker] }) :=
  ⟨(claim_C9_buy_shop_item runC9poor 0).2.2.1 shopC9
      (ShopItem.JokerItem (Joker.new JokerType.Joker)) rfl rfl (by decide),
   (claim_C9_buy_shop_item runC9 5).2.1 shopC9 rfl (by decide),
   (claim_C9_buy_shop_item { runC9 with shop := none } 0).1 rfl,
   (claim_C9_buy_shop_item runC9 0).2.2.2.2.2.1 shopC9 (Joker.new JokerType.Joker)
      rfl rfl (by decide) (by decide)⟩


lemma map_getD_range (l : List PlayingCard) (d : PlayingCard) :
    (List.range l.length).map (fun i => l.getD i d) = l := by
  induction l with
  | nil => simp
  | cons a t ih =>
    rw [List.length_cons, List.range_succ_eq_map]
    simp only [List.map_cons, List.map_map]
    refine congrArg (a :: ·) ?_
    have hfun : ((fun i => (a :: t).getD i d) ∘ Nat.succ) = fun i => t.getD i d := by
      funext i
      simp
    rw [hfun, ih]

lemma getD_eraseIdx_lt (l : List PlayingCard) (i j : Nat) (d : PlayingCard)
    (h : j < i) : (l.eraseIdx i).getD j d = l.getD j d := by
  induction l generalizing i j with
  | nil => simp
  | cons a t ih =>
    match i with
    | 0 => omega
    | i' + 1 =>
      match j with
      | 0 => rfl
      | j' + 1 =>
        simp only [List.eraseIdx_cons_succ, List.getD_cons_succ]
        exact ih i' j' (by omega)

lemma getD_eraseIdx_ge (l : List PlayingCard) (i j : Nat) (d : PlayingCard)
    (h : i ≤ j) : (l.eraseIdx i).getD j d = l.getD (j + 1) d := by
  induction l generalizing i j with
  | nil => simp
  | cons a t ih =>
    match i with
    | 0 => rfl
    | i' + 1 =>
      match j with
      | 0 => omega
      | j' + 1 =>
        simp only [List.eraseIdx_cons_succ, List.getD_cons_succ]
        exact ih i' j' (by omega)

lemma filter_mem_cons_split (n idx : Nat) (rest : List Nat) (hidx : idx < n)
    (hrest : ∀ j ∈ rest, j < idx) :
    (List.range n).filter (fun i => decide (i ∈ idx :: rest)) =
      (List.range idx).filter (fun i => decide (i ∈ rest)) ++ [idx] := by
  conv_lhs => rw [show n = (idx + 1) + (n - idx - 1) by omega, List.range_add]
  rw [List.filter_append, List.range_succ, List.filter_append]
  have h1 : (List.range idx).filter (fun i => decide (i ∈ idx :: rest)) =
      (List.range idx).filter (fun i => decide (i ∈ rest)) := by
    refine List.filter_congr ?_
    intro i hi
    rw [List.mem_range] at hi
    simp only [List.mem_cons, decide_eq_decide]
    constructor
    · rintro (rfl | hm)
      · omega
      · exact hm
    · exact Or.inr
  have h2 : List.filter (fun i => decide (i ∈ idx :: rest)) [idx] = [idx] := by
    simp
  have h3 : (List.map (fun x => idx + 1 + x) (List.range (n - idx - 1))).filter
      (fun i => decide (i ∈ idx :: rest)) = [] := by
    refine List.filter_eq_nil_iff.mpr ?_
    intro a ha
    rw [List.mem_map] at ha
    obtain ⟨j, _, rfl⟩ := ha
    simp only [List.mem_cons, decide_eq_true_eq, not_or]
    refine ⟨by omega, fun hm => ?_⟩
    exact absurd (hrest _ hm) (by omega)
  rw [h1, h2, h3, List.append_nil]

lemma filter_mem_low (n idx : Nat) (rest : List Nat) (hidx : idx ≤ n)
    (hrest : ∀ j ∈ rest, j < idx) :
    (List.range n).filter (fun i => decide (i ∈ rest)) =
      (List.range idx).filter (fun i => decide (i ∈ rest)) := by
  conv_lhs => rw [show n = idx + (n - idx) by omega, List.range_add]
  rw [List.filter_append]
  have h3 : (List.map (fun x => idx + x) (List.range (n - idx))).filter
      (fun i => decide (i ∈ rest)) = [] := by
    refine List.filter_eq_nil_iff.mpr ?_
    intro a ha
    rw [List.mem_map] at ha
    obtain ⟨j, _, rfl⟩ := ha
    simp only [decide_eq_true_eq]
    intro hm
    exact absurd (hrest _ hm) (by omega)
  rw [h3, List.append_nil]

lemma filter_notmem_cons_split (n idx : Nat) (rest : List Nat) (hidx : idx < n)
    (hrest : ∀ j ∈ rest, j < idx) :
    (List.range n).filter (fun i => decide (i ∉ idx :: rest)) =
      (List.range idx).filter (fun i => decide (i ∉ rest)) ++
        (List.range (n - idx - 1)).map (fun j => idx + 1 + j) := by
  conv_lhs => rw [show n = (idx + 1) + (n - idx - 1) by omega, List.range_add]
  rw [List.filter_append, List.range_succ, List.filter_append]
  have h1 : (List.range idx).filter (fun i => decide (i ∉ idx :: rest)) =
      (List.range idx).filter (fun i => decide (i ∉ rest)) := by
    refine List.filter_congr ?_
    intro i hi
    rw [List.mem_range] at hi
    simp only [List.mem_cons, decide_eq_decide, not_or]
    constructor
    · exact fun hc => hc.2
    · exact fun hm => ⟨by omega, hm⟩
  have h2 : List.filter (fun i => decide (i ∉ idx :: rest)) [idx] = [] := by
    simp
  have h3 : (List.map (fun x => idx + 1 + x) (List.range (n - idx - 1))).filter
      (fun i => decide (i ∉ idx :: rest)) =
        List.map (fun x => idx + 1 + x) (List.range (n - idx - 1)) := by
    refine List.filter_eq_self.mpr ?_
    intro a ha
    rw [List.mem_map] at ha
    obtain ⟨j, _, rfl⟩ := ha
    simp only [List.mem_cons, decide_eq_true_eq, not_or]
    refine ⟨by omega, fun hm => ?_⟩
    exact absurd (hrest _ hm) (by omega)
  rw [h1, h2, h3]
  simp

lemma filter_notmem_low_split (m idx : Nat) (rest : List Nat) (hidx : idx ≤ m)
    (hrest : ∀ j ∈ rest, j < idx) :
    (List.range m).filter (fun i => decide (i ∉ rest)) =
      (List.range idx).filter (fun i => decide (i ∉ rest)) ++
        (List.range (m - idx)).map (fun j => idx + j) := by
  conv_lhs => rw [show m = idx + (m - idx) by omega, List.range_add]
  rw [List.filter_append]
  have h3 : (List.map (fun x => idx + x) (List.range (m - idx))).filter
      (fun i => decide (i ∉ rest)) = List.map (fun x => idx + x) (List.range (m - idx)) := by
    refine List.filter_eq_self.mpr ?_
    intro a ha
    rw [List.mem_map] at ha
    obtain ⟨j, _, rfl⟩ := ha
    simp only [decide_eq_true_eq]
    intro hm
    exact absurd (hrest _ hm) (by omega)
  rw [h3]

lemma removeLoop_spec (ds : List Nat) (l : List PlayingCard)
    (hpw : ds.Pairwise (fun a b => b < a)) :
    removeLoop ds l =
      ((((List.range l.length).filter (fun i => decide (i ∈ ds))).map
          (fun i => l.getD i default)).reverse,
       ((List.range l.length).filter (fun i => decide (i ∉ ds))).map
          (fun i => l.getD i default)) := by
  induction ds generalizing l with
  | nil =>
    have h1 : (List.range l.length).filter
        (fun i => decide (i ∈ ([] : List Nat))) = [] := by simp
    have h2 : (List.range l.length).filter
        (fun i => decide (i ∉ ([] : List Nat))) = List.range l.length := by simp
    show ([], l) = _
    rw [h1, h2, map_getD_range]
    simp
  | cons idx rest ih =>
    have hrest : ∀ j ∈ rest, j < idx := fun j hj => List.rel_of_pairwise_cons hpw hj
    have hpw2 : rest.Pairwise (fun a b => b < a) := hpw.of_cons
    by_cases hidx : idx < l.length
    · have hlen : (l.eraseIdx idx).length = l.length - 1 := by
        rw [List.length_eraseIdx, if_pos hidx]
      have hih := ih (l.eraseIdx idx) hpw2
      rw [hlen] at hih
      have hlow : ∀ p : Nat → Bool,
          ((List.range idx).filter p).map (fun i => (l.eraseIdx idx).getD i default) =
            ((List.range idx).filter p).map (fun i => l.getD i default) := by
        intro p
        refine List.map_congr_left ?_
        intro i hi
        rw [List.mem_filter, List.mem_range] at hi
        exact getD_eraseIdx_lt l idx i default hi.1
      have hplayed :
          (((List.range l.length).filter (fun i => decide (i ∈ idx :: rest))).map
            (fun i => l.getD i default)).reverse =
          l.getD idx default ::
            (((List.range (l.length - 1)).filter (fun i => decide (i ∈ rest))).map
              (fun i => (l.eraseIdx idx).getD i default)).reverse := by
        rw [filter_mem_cons_split l.length idx rest hidx hrest,
          filter_mem_low (l.length - 1) idx rest (by omega) hrest,
          hlow (fun i => decide (i ∈ rest))]
        simp
      have hhand :
          ((List.range l.length).filter (fun i => decide (i ∉ idx :: rest))).map
            (fun i => l.getD i default) =
          ((List.range (l.length - 1)).filter (fun i => decide (i ∉ rest))).map
            (fun i => (l.eraseIdx idx).getD i default) := by
        rw [filter_notmem_cons_split l.length idx rest hidx hrest,
          filter_notmem_low_split (l.length - 1) idx rest (by omega) hrest,
          List.map_append, List.map_append, hlow (fun i => decide (i ∉ rest))]
        refine congrArg _ ?_
        rw [List.map_map, List.map_map,
          show l.length - 1 - idx = l.length - idx - 1 from by omega]
        refine List.map_congr_left ?_
        intro j hj
        rw [List.mem_range] at hj
        simp only [Function.comp_apply]
        rw [getD_eraseIdx_ge l idx (idx + j) default (by omega)]
        have harg : idx + 1 + j = idx + j + 1 := by omega
        rw [harg]
      rw [removeLoop]
      rw [if_pos hidx]
      dsimp only
      rw [hih, hplayed, hhand]
    · have hih := ih l hpw2
      have hmem : ∀ p ∈ List.range l.length,
          (decide (p ∈ idx :: rest) : Bool) = decide (p ∈ rest) := by
        intro p hp
        rw [List.mem_range] at hp
        simp only [List.mem_cons, decide_eq_decide]
        constructor
        · rintro (rfl | hm)
          · omega
          · exact hm
        · exact Or.inr
      have hmem2 : ∀ p ∈ List.range l.length,
          (decide (p ∉ idx :: rest) : Bool) = decide (p ∉ rest) := by
        intro p hp
        rw [List.mem_range] at hp
        simp only [List.mem_cons, decide_eq_decide, not_or]
        constructor
        · exact fun hc => hc.2
        · exact fun hm => ⟨by omega, hm⟩
      rw [removeLoop]
      rw [if_neg hidx]
      rw [hih, List.filter_congr hmem, List.filter_congr hmem2]

/-- C10: for a run state whose selection is duplicate-free (an invariant of
the data model), play_selected returns the selected in-range cards in
ascending hand-index order regardless of selection order, removes exactly
those cards from the hand, clears the selection, and leaves every other
field (both deck piles included) unchanged. -/
theorem claim_C10_play_selected (s : RunState) (hnd : s.selected_indices.Nodup) :
    s.play_selected =
      (selectedInOrder s.hand s.selected_indices,
       { s with hand := handWithout s.hand s.selected_indices,
                selected_indices := [] }) := by
  have hperm : (List.insertionSort (fun a b : Nat => b ≤ a) s.selected_indices).Perm
      s.selected_indices := List.perm_insertionSort _ _
  have hnodup : (List.insertionSort (fun a b : Nat => b ≤ a) s.selected_indices).Nodup :=
    hperm.nodup_iff.mpr hnd
  have hsorted : List.Pairwise (fun a b : Nat => b ≤ a)
      (List.insertionSort (fun a b : Nat => b ≤ a) s.selected_indices) :=
    List.sorted_insertionSort _ _
  have hpw : (List.insertionSort (fun a b : Nat => b ≤ a) s.selected_indices).Pairwise
      (fun a b => b < a) :=
    (hsorted.and hnodup).imp (fun hab => lt_of_le_of_ne hab.1 (fun e => hab.2 e.symm))
  have hspec := removeLoop_spec _ s.hand hpw
  unfold RunState.play_selected
  dsimp only
  rw [hspec, List.reverse_reverse]
  have hx : (List.range s.hand.length).filter (fun i =>
        decide (i ∈ List.insertionSort (fun a b : Nat => b ≤ a) s.selected_indices)) =
      (List.range s.hand.length).filter (fun i => decide (i ∈ s.selected_indices)) :=
    List.filter_congr (fun i _ => by simp [hperm.mem_iff])
  have hy : (List.range s.hand.length).filter (fun i =>
        decide (i ∉ List.insertionSort (fun a b : Nat => b ≤ a) s.selected_indices)) =
      (List.range s.hand.length).filter (fun i => decide (i ∉ s.selected_indices)) :=
    List.filter_congr (fun i _ => by simp [hperm.mem_iff])
  rw [hx, hy]
  rfl

theorem claim_C10_play_selected_witness :
    runC10.selected_indices.Nodup ∧
    runC10.play_selected =
      (selectedInOrder runC10.hand runC10.selected_indices,
       { runC10 with hand := handWithout runC10.hand runC10.selected_indices,
                     selected_indices := [] }) :=
  ⟨by decide, claim_C10_play_selected runC10 (by decide)⟩

end Balatrust
